import Mathlib

/-!
Shallow embedding of `psychopy/projects/pavlovia.py` (the Pavlovia
session/project/token-storage helpers) and proofs about the claims of the
specification.  Python dictionaries are modelled as insertion-ordered
association lists with unique keys, Python exceptions as an `Except` error
channel, and the remote gitlab service as explicit oracles passed to the
functions that would perform network calls.
-/

set_option autoImplicit false
set_option linter.unusedVariables false

namespace Pavlovia

/-- Python runtime values, as far as this module manipulates them:
`None`, booleans, integers, strings, lists, (string-keyed) dicts, and the
`NotImplemented` sentinel. -/
inductive PyVal where
  | none
  | bool (b : Bool)
  | int (n : Int)
  | str (s : String)
  | list (xs : List PyVal)
  | dict (entries : List (String × PyVal))
  | notImplemented

mutual

/-- Structural equality on `PyVal` (the fragment of Python `==` this module
relies on: the values compared here are ints and strings). -/
def PyVal.beq : PyVal → PyVal → Bool
  | .none, .none => true
  | .bool a, .bool b => a == b
  | .int a, .int b => a == b
  | .str a, .str b => a == b
  | .list xs, .list ys => PyVal.beqList xs ys
  | .dict xs, .dict ys => PyVal.beqEntries xs ys
  | .notImplemented, .notImplemented => true
  | _, _ => false

/-- Elementwise `PyVal.beq` on lists. -/
def PyVal.beqList : List PyVal → List PyVal → Bool
  | [], [] => true
  | x :: xs, y :: ys => PyVal.beq x y && PyVal.beqList xs ys
  | _, _ => false

/-- Elementwise `PyVal.beq` on string-keyed entry lists. -/
def PyVal.beqEntries : List (String × PyVal) → List (String × PyVal) → Bool
  | [], [] => true
  | (k, v) :: xs, (l, w) :: ys => k == l && PyVal.beq v w && PyVal.beqEntries xs ys
  | _, _ => false

end

instance : BEq PyVal := ⟨PyVal.beq⟩

/-- The Python exception kinds this module can produce. -/
inductive PyError where
  | typeError (msg : String)
  | attributeError (msg : String)
  | keyError (key : String)
  | valueError (msg : String)
  | notImplementedError (msg : String)
  | gitlabAuthError (msg : String)
  deriving DecidableEq, Repr

/-- Python truthiness (`if x:`) for the values above. -/
def pyTruthy : PyVal → Bool
  | .none => false
  | .bool b => b
  | .int n => n != 0
  | .str s => s != ""
  | .list xs => !xs.isEmpty
  | .dict d => !d.isEmpty
  | .notImplemented => true

/-- Association-list lookup: the model of Python dict indexing and of the
`in` membership test (`(alookup d k).isSome`).  First entry with the key
wins; our dicts keep keys unique. -/
def alookup {β : Type} : List (String × β) → String → Option β
  | [], _ => Option.none
  | (a, b) :: rest, k => if a = k then some b else alookup rest k

/-- Semantics of `raise v`: none of the values of `PyVal` is a `BaseException`
instance (in particular `NotImplemented` is a sentinel, not an exception
class), so raising any of them yields the interpreter TypeError. -/
def raiseValue (_ : PyVal) : PyError :=
  .typeError "exceptions must derive from BaseException"

/-- Python subscript `v[k]` on a (string-keyed) value: a KeyError when the
key is absent from a dict, a TypeError when the value is not a dict. -/
def pyDictGet (v : PyVal) (k : String) : Except PyError PyVal :=
  match v with
  | .dict d =>
      match alookup d k with
      | some w => .ok w
      | Option.none => .error (.keyError k)
  | _ => .error (.typeError "object is not subscriptable")

/-! ## Token storage (`PavloviaTokenStorage`)

The store itself is a Python dict mapping usernames to tokens; we model it
as an insertion-ordered association list with the CPython dict semantics:
assigning to an existing key replaces the value in place, a new key is
appended. -/

/-- The in-memory content of a `PavloviaTokenStorage` dict. -/
abbrev TokenMap := List (String × String)

/-- Replace the value stored under `k` wherever `k` occurs, keeping entry
order (the in-place value overwrite of a CPython dict). -/
def dictReplace : TokenMap → String → String → TokenMap
  | [], _, _ => []
  | (a, b) :: rest, k, v =>
      if a = k then (k, v) :: dictReplace rest k v
      else (a, b) :: dictReplace rest k v

/-- CPython `d[k] = v`: replace in place when the key exists, else append. -/
def dictSet (d : TokenMap) (k v : String) : TokenMap :=
  if (alookup d k).isSome then dictReplace d k v
  else d ++ [(k, v)]

/-- CPython `d.update(m)`: `dictSet` each entry of `m` in order. -/
def dictUpdate (d m : TokenMap) : TokenMap :=
  m.foldl (fun acc p => dictSet acc p.1 p.2) d

/-- The state of the token file on disk: absent, present but not valid
JSON, or a JSON object of strings (which is all `save` ever writes; the
"printable strings" of the spec round-trip faithfully through `json`). -/
inductive FileState where
  | missing
  | invalid
  | content (m : TokenMap)
  deriving DecidableEq, Repr

/-- Model of `PavloviaTokenStorage.load`: skip when the file is absent
(`os.path.isfile` fails), swallow the ValueError of a failed JSON parse
(`except ValueError: pass`), and otherwise `self.update` with the parsed
mapping.  The `Except` result records that no exception escapes. -/
def load (store : TokenMap) (file : FileState) : Except PyError TokenMap :=
  match file with
  | .missing => .ok store
  | .invalid => .ok store
  | .content m => .ok (dictUpdate store m)

/-- Model of `PavloviaTokenStorage.save`: serialize the whole mapping as JSON and
overwrite the file. -/
def save (store : TokenMap) : FileState :=
  .content store

/-- Construction `PavloviaTokenStorage()` with no arguments: `dict.__init__` leaves the
dict empty, then `__init__` calls `self.load()`. -/
def mkTokenStorage (file : FileState) : Except PyError TokenMap :=
  load [] file

/-! ## Remote objects -/

/-- The gitlab user record exposed after `auth()`. -/
structure GitlabUser where
  username : String
  deriving DecidableEq, Repr

/-- The `gitlab.Gitlab` client handle: `user` is set by `auth()`. -/
structure GitlabClient where
  user : Option GitlabUser
  deriving DecidableEq, Repr

/-- A `gitlab.v4.objects.Project` REST object: `_attrs` holds the fetched
attribute bundle; `instanceAttributes` is the optional `attributes` entry
of the object's own `__dict__` that `__getattr__` probes for. -/
structure GitlabProject where
  attrs : List (String × PyVal)
  instanceAttributes : Option (List (String × PyVal)) := Option.none

/-- Reading `proj.attributes` on the REST object: the fetched attribute bundle. -/
def GitlabProject.attributes (gp : GitlabProject) : List (String × PyVal) :=
  gp.attrs

/-- Reading `proj.id` on the REST object: attribute lookup in `_attrs`, an
AttributeError when the bundle has no `id` field. -/
def GitlabProject.restId (gp : GitlabProject) : Except PyError PyVal :=
  match alookup gp.attrs "id" with
  | some v => .ok v
  | Option.none => .error (.attributeError "id")

/-- The state of a `PavloviaProject` wrapper: the wrapped REST object plus
the other entries of the wrapper's instance `__dict__` (the `_proj` slot is
the structure's first field; any further instance attributes live in
`selfDict`). -/
structure PavloviaProjectState where
  _proj : GitlabProject
  selfDict : List (String × PyVal) := []

/-! ## `PavloviaProject` -/

/-- The argument of `PavloviaProject.__init__`: either an already-fetched
gitlab REST object (the `isinstance(proj, gitlab.v4.objects.Project)`
branch) or a bare value such as a numeric id. -/
inductive ProjArg where
  | restObject (gp : GitlabProject)
  | value (v : PyVal)

/-- The body of `PavloviaProject.__init__(self, proj)`: wrap a REST object
directly, otherwise fetch via `currentSession.gitlab.projects.get(proj)`
(the `fetch` oracle; the preceding `print(proj)` has no effect on state). -/
def pavloviaProjectInitBody (proj : ProjArg)
    (fetch : PyVal → Except PyError GitlabProject) :
    Except PyError PavloviaProjectState :=
  match proj with
  | .restObject gp => .ok ⟨gp, []⟩
  | .value v =>
      match fetch v with
      | .ok gp => .ok ⟨gp, []⟩
      | .error e => .error e

/-- The parameter list of `PavloviaProject.__init__` after `self`. -/
def pavloviaProjectInitParams : List String := ["proj"]

/-- CPython keyword binding: the first keyword argument whose name is not
among the declared parameters, if any. -/
def unexpectedKwarg (params : List String) (kwargNames : List String) :
    Option String :=
  kwargNames.find? (fun k => !params.contains k)

/-- Model of `PavloviaProject.__repr__`: the constant string (the inline comment at
the call site believes it includes `self.id`, but it does not). -/
def projRepr (_ : PavloviaProjectState) : String :=
  "PavloviaProject"

/-- The names `PavloviaProject` defines as properties: attribute access for
them never reaches `__getattr__`. -/
def projPropertyNames : List String :=
  ["id", "owner", "attributes", "title", "tags"]

/-- First dict of `toSearch` containing `name`, and its value there. -/
def searchDicts (dicts : List (List (String × PyVal))) (name : String) :
    Option PyVal :=
  match dicts with
  | [] => Option.none
  | d :: rest =>
      match alookup d name with
      | some v => some v
      | Option.none => searchDicts rest name

/-- Model of `PavloviaProject.__getattr__(self, name)`: a bare `return` (hence
`None`) for `owner`; otherwise search `self.__dict__`, `proj._attrs` and,
when present, `self._proj.__dict__['attributes']` in order; when nothing
matches, raise an AttributeError built from `repr(self)` (for `id` itself
the literal `"PavloviaProject"` is used instead of `repr`). -/
def projGetattr (p : PavloviaProjectState) (name : String) :
    Except PyError PyVal :=
  if name = "owner" then .ok PyVal.none
  else
    let toSearch : List (List (String × PyVal)) :=
      [p.selfDict, p._proj.attrs] ++
        (match p._proj.instanceAttributes with
         | some a => [a]
         | Option.none => [])
    match searchDicts toSearch name with
    | some v => .ok v
    | Option.none =>
        let selfDescr := if name = "id" then "PavloviaProject" else projRepr p
        .error (.attributeError
          ("No attribute \x27" ++ name ++ "\x27 in " ++ selfDescr))

/-- The `PavloviaProject.id` property: `None` when the attribute bundle has
no `id` field, else that field. -/
def idProp (p : PavloviaProjectState) : Except PyError PyVal :=
  match alookup p._proj.attributes "id" with
  | Option.none => .ok PyVal.none
  | some v => .ok v

/-- The `PavloviaProject.owner` property.  Its first statement is
`return self._proj.attributes['namespace']['name']`; the subsequent
`if 'owner' in ...` preference for `owner.username` is unreachable code
after that `return` and therefore does not appear here. -/
def ownerProp (p : PavloviaProjectState) : Except PyError PyVal :=
  match pyDictGet (PyVal.dict p._proj.attributes) "namespace" with
  | .error e => .error e
  | .ok ns => pyDictGet ns "name"

/-! ## `PavloviaSession` -/

/-- The instance state of a `PavloviaSession`. -/
structure PavloviaSession where
  username : Option String
  password : Option String
  userID : Option String
  userFullName : Option String
  remember_me : Bool
  authenticated : Bool
  currentProject : Option PavloviaProjectState
  gitlab : Option GitlabClient
  token : Option String

/-- Model of `PavloviaSession.setToken(self, token)`.  The network round-trip of
`gitlab.Gitlab(...).auth()` is the `auth` oracle; `file` is the token file
that the `remember_me` branch reads and rewrites through a fresh
`PavloviaTokenStorage`.  Note that no branch assigns `authenticated`. -/
def setToken (s : PavloviaSession) (token : Option String)
    (auth : Except PyError GitlabUser) (file : FileState) :
    Except PyError (PavloviaSession × FileState) :=
  let s1 := { s with token := token }
  match token with
  | Option.none => .ok (s1, file)
  | some t =>
      if t = "" then .ok (s1, file)
      else
        match auth with
        | .error e => .error e
        | .ok u =>
            let s2 := { s1 with
              gitlab := some ⟨some u⟩,
              username := some u.username }
            if s2.remember_me then
              match mkTokenStorage file with
              | .error e => .error e
              | .ok tokens => .ok (s2, save (dictSet tokens u.username t))
            else .ok (s2, file)

/-- Model of `PavloviaSession.__init__(self, token=None, remember_me=True)`: zero
out the state and delegate to `setToken`. -/
def pavloviaSessionInit (token : Option String) (remember_me : Bool)
    (auth : Except PyError GitlabUser) (file : FileState) :
    Except PyError (PavloviaSession × FileState) :=
  setToken
    { username := Option.none
      password := Option.none
      userID := Option.none
      userFullName := Option.none
      remember_me := remember_me
      authenticated := false
      currentProject := Option.none
      gitlab := Option.none
      token := Option.none }
    token auth file

/-- Model of `PavloviaSession.openProject(self, projID)`: evaluates
`PavloviaProject(session=self, id=projID)`.  CPython binds the keyword
arguments against `PavloviaProject.__init__(self, proj)`, raising a
TypeError at the first unexpected keyword; were all keywords acceptable,
the still-unbound `proj` parameter would raise the missing-argument
TypeError before the constructor body could run. -/
def openProject (s : PavloviaSession) (projID : PyVal) :
    Except PyError (PavloviaSession × PavloviaProjectState) :=
  match unexpectedKwarg pavloviaProjectInitParams ["session", "id"] with
  | some k =>
      .error (.typeError
        ("__init__() got an unexpected keyword argument \x27" ++ k ++ "\x27"))
  | Option.none =>
      .error (.typeError
        "__init__() missing 1 required positional argument: \x27proj\x27")

/-- Model of `PavloviaSession.createProject(...)`: `raise NotImplemented`. -/
def createProject (s : PavloviaSession) (title : PyVal) (descr : PyVal)
    (tags : List PyVal) (public : Bool) (category : PyVal) :
    Except PyError PyVal :=
  .error (raiseValue PyVal.notImplemented)

/-- Model of `PavloviaSession.applyChanges(self)`: `raise NotImplemented`. -/
def applyChanges (s : PavloviaSession) : Except PyError PyVal :=
  .error (raiseValue PyVal.notImplemented)

/-- Model of `PavloviaSession.projectFromID(self, id)`: `None` for a falsy id, else
`PavloviaProject(id)` (a positional call, which fetches the project through
the module-global `currentSession`, here the `fetch` oracle).  The boolean
of the result records whether a remote call was attempted. -/
def projectFromID (id : PyVal)
    (fetch : PyVal → Except PyError GitlabProject) :
    Except PyError (Option PavloviaProjectState) × Bool :=
  if pyTruthy id then
    match pavloviaProjectInitBody (ProjArg.value id) fetch with
    | .ok p => (.ok (some p), true)
    | .error e => (.error e, true)
  else
    (.ok Option.none, false)

/-- The loop of `PavloviaSession.findUserProjects`: walk `own + group`,
keep an entry when its `id` attribute is truthy and not yet in `projIDs`,
wrapping it as `PavloviaProject(proj)` (the REST-object branch of the
constructor). -/
def findUserProjectsGo :
    List GitlabProject → List PyVal → Except PyError (List PavloviaProjectState)
  | [], _ => .ok []
  | gp :: rest, projIDs =>
      match gp.restId with
      | .error e => .error e
      | .ok idv =>
          if pyTruthy idv && !projIDs.contains idv then
            match findUserProjectsGo rest (projIDs ++ [idv]) with
            | .error e => .error e
            | .ok tail => .ok (⟨gp, []⟩ :: tail)
          else findUserProjectsGo rest projIDs

/-- Model of `PavloviaSession.findUserProjects(self)`: `own` and `group` are the two
server listings (`owned=True` and `owned=False, membership=True`); the body
iterates over `own + group`. -/
def findUserProjects (own group : List GitlabProject) :
    Except PyError (List PavloviaProjectState) :=
  findUserProjectsGo (own ++ group) []

/-- The `id` attribute of a listed REST object, as an optional value. -/
def gpId (gp : GitlabProject) : Option PyVal :=
  alookup gp.attrs "id"

/-- Modelled from the spec: the dedup merge the spec describes for
`findUserProjects` — "deduplicating by id (first occurrence wins,
owned-list takes precedence by request order)" — as a recursion over the
id sequence of `own ++ member`. -/
def specDedupMergeGo (ids : List PyVal) (seen : List PyVal) : List PyVal :=
  match ids with
  | [] => []
  | v :: rest =>
      if seen.contains v then specDedupMergeGo rest seen
      else v :: specDedupMergeGo rest (seen ++ [v])

/-- Modelled from the spec: the dedup merge, starting from nothing seen. -/
def specDedupMerge (ids : List PyVal) : List PyVal :=
  specDedupMergeGo ids []

/-- Modelled from the spec (as amended): drop the falsy ids, then dedup
merge the remaining ones, first occurrence winning. -/
def specDropFalsyDedupMerge (ids : List PyVal) : List PyVal :=
  specDedupMerge (ids.filter pyTruthy)

/-! ## Dictionary lemmas -/

theorem alookup_append {β : Type} (l₁ l₂ : List (String × β)) (k : String) :
    alookup (l₁ ++ l₂) k =
      match alookup l₁ k with
      | some v => some v
      | Option.none => alookup l₂ k := by
  induction l₁ with
  | nil => simp [alookup]
  | cons a l₁ ih =>
      obtain ⟨ak, av⟩ := a
      by_cases ha : ak = k
      · simp [alookup, ha]
      · simpa [alookup, ha] using ih

theorem alookup_some_mem {β : Type} (d : List (String × β)) (k : String)
    (v : β) (h : alookup d k = some v) : k ∈ d.map Prod.fst := by
  induction d with
  | nil => simp [alookup] at h
  | cons a d ih =>
      obtain ⟨ak, av⟩ := a
      by_cases ha : ak = k
      · simp [ha]
      · simp only [alookup, if_neg ha] at h
        simpa using Or.inr (ih h)

theorem alookup_not_mem {β : Type} (d : List (String × β)) (k : String)
    (h : k ∉ d.map Prod.fst) : alookup d k = Option.none := by
  match hl : alookup d k with
  | Option.none => rfl
  | some v => exact absurd (alookup_some_mem d k v hl) h

theorem alookup_dictReplace (d : TokenMap) (k v k' : String) :
    alookup (dictReplace d k v) k' =
      if k' = k then (alookup d k).map (fun _ => v) else alookup d k' := by
  induction d with
  | nil => by_cases h : k' = k <;> simp [dictReplace, alookup, h]
  | cons a d ih =>
      obtain ⟨ak, av⟩ := a
      by_cases ha : ak = k
      · subst ha
        by_cases hk : k' = ak
        · subst hk
          simp [dictReplace, alookup]
        · simp [dictReplace, alookup, hk, Ne.symm hk, ih]
      · by_cases hak : ak = k'
        · subst hak
          simp [dictReplace, alookup, ha, Ne.symm ha]
        · simp [dictReplace, alookup, hak, ha, ih]

theorem alookup_dictSet (d : TokenMap) (k v k' : String) :
    alookup (dictSet d k v) k' = if k' = k then some v else alookup d k' := by
  unfold dictSet
  by_cases hc : (alookup d k).isSome
  · rw [if_pos hc, alookup_dictReplace]
    by_cases hk : k' = k
    · obtain ⟨w, hw⟩ := Option.isSome_iff_exists.mp hc
      simp [hk, hw]
    · simp [hk]
  · have hnone : alookup d k = Option.none := by
      cases h : alookup d k with
      | none => rfl
      | some w => exact absurd (by simp [h]) hc
    rw [if_neg hc, alookup_append]
    by_cases hk : k' = k
    · subst hk
      simp [hnone, alookup]
    · cases h : alookup d k' with
      | none => simp [alookup, hk, Ne.symm hk]
      | some w => simp [hk]

theorem alookup_dictUpdate (store m : TokenMap) (k : String)
    (hm : (m.map Prod.fst).Nodup) :
    alookup (dictUpdate store m) k =
      match alookup m k with
      | some v => some v
      | Option.none => alookup store k := by
  induction m generalizing store with
  | nil => simp [dictUpdate, alookup]
  | cons a m ih =>
      obtain ⟨ak, av⟩ := a
      simp only [List.map_cons, List.nodup_cons] at hm
      have step : dictUpdate store ((ak, av) :: m) =
          dictUpdate (dictSet store ak av) m := rfl
      rw [step, ih (dictSet store ak av) hm.2]
      by_cases hk : ak = k
      · subst hk
        rw [alookup_not_mem m ak hm.1]
        simp [alookup, alookup_dictSet]
      · have hcons : alookup ((ak, av) :: m) k = alookup m k := by
          simp [alookup, hk]
        rw [hcons]
        cases h : alookup m k with
        | some v => simp
        | none => simp [alookup_dictSet, Ne.symm hk]

theorem dictUpdate_disjoint (m d : TokenMap)
    (hm : (m.map Prod.fst).Nodup)
    (hd : ∀ k ∈ m.map Prod.fst, alookup d k = Option.none) :
    dictUpdate d m = d ++ m := by
  induction m generalizing d with
  | nil => simp [dictUpdate]
  | cons a m ih =>
      obtain ⟨ak, av⟩ := a
      simp only [List.map_cons, List.nodup_cons] at hm
      have hset : dictSet d ak av = d ++ [(ak, av)] := by
        simp [dictSet, hd ak (by simp)]
      have hd' : ∀ k ∈ m.map Prod.fst,
          alookup (d ++ [(ak, av)]) k = Option.none := by
        intro k hk
        have hne : k ≠ ak := fun h => hm.1 (h ▸ hk)
        rw [alookup_append, hd k (by simp [hk])]
        simp [alookup, Ne.symm hne]
      have step : dictUpdate d ((ak, av) :: m) =
          dictUpdate (dictSet d ak av) m := rfl
      rw [step, hset, ih (d ++ [(ak, av)]) hm.2 hd']
      simp

/-! ## Claim theorems -/

/-- C8: for a freshly constructed Token Store, `load()` does not raise when
the token file is absent or when its content is not valid JSON, and in both
cases the store is left empty. -/
theorem c8_load_tolerates_missing_and_invalid :
    load [] FileState.missing = Except.ok [] ∧
    load [] FileState.invalid = Except.ok [] :=
  ⟨rfl, rfl⟩

/-- C9: `save()` on a Token Store holding a (unique-key) mapping followed
by `load()` on a fresh Token Store from the same location yields a mapping
equal to the original. -/
theorem c9_save_load_roundtrip (m : TokenMap)
    (hm : (m.map Prod.fst).Nodup) :
    mkTokenStorage (save m) = Except.ok m := by
  have h := dictUpdate_disjoint m [] hm (fun k _ => rfl)
  simp [mkTokenStorage, save, load, h]

/-- Witness for C9 at a concrete two-entry mapping. -/
theorem c9_save_load_roundtrip_witness :
    ((([("alice", "tokenA"), ("bob", "tokenB")] : TokenMap).map
        Prod.fst).Nodup) ∧
    mkTokenStorage (save [("alice", "tokenA"), ("bob", "tokenB")]) =
      Except.ok [("alice", "tokenA"), ("bob", "tokenB")] :=
  ⟨by decide, c9_save_load_roundtrip _ (by decide)⟩

/-- C10: `load()` on a store that already holds entries removes no key —
a username absent from the (unique-key) file keeps its in-memory token, and
a username present in both gets the file's token (the file wins). -/
theorem c10_load_keeps_and_overwrites (store m : TokenMap) (k : String)
    (hm : (m.map Prod.fst).Nodup) :
    load store (FileState.content m) = Except.ok (dictUpdate store m) ∧
    (alookup m k = Option.none →
      alookup (dictUpdate store m) k = alookup store k) ∧
    (∀ v, alookup m k = some v → alookup (dictUpdate store m) k = some v) := by
  refine ⟨rfl, ?_, ?_⟩
  · intro h
    rw [alookup_dictUpdate store m k hm, h]
  · intro v h
    rw [alookup_dictUpdate store m k hm, h]

/-- Witness for C10: a two-entry store loaded against a one-entry file. -/
theorem c10_load_keeps_and_overwrites_witness :
    ((([("bob", "t2")] : TokenMap).map Prod.fst).Nodup) ∧
    (load [("alice", "t0"), ("bob", "t1")]
        (FileState.content [("bob", "t2")]) =
      Except.ok (dictUpdate [("alice", "t0"), ("bob", "t1")]
        [("bob", "t2")]) ∧
    (alookup [("bob", "t2")] "alice" = Option.none →
      alookup (dictUpdate [("alice", "t0"), ("bob", "t1")]
        [("bob", "t2")]) "alice" =
        alookup [("alice", "t0"), ("bob", "t1")] "alice") ∧
    (∀ v, alookup [("bob", "t2")] "alice" = some v →
      alookup (dictUpdate [("alice", "t0"), ("bob", "t1")]
        [("bob", "t2")]) "alice" = some v)) :=
  ⟨by decide, c10_load_keeps_and_overwrites _ _ _ (by decide)⟩

/-- C1 (claim refuted by the code): a successful `setToken` with a
non-falsy token leaves `authenticated = False` even though the session now
holds a gitlab handle and the token exchange succeeded — no code path ever
assigns `authenticated = True`. -/
theorem c1_authenticated_never_becomes_true :
    ∃ s file, pavloviaSessionInit (some "token123") true
        (Except.ok ⟨"alice"⟩) FileState.missing = Except.ok (s, file) ∧
      s.gitlab.isSome = true ∧ s.authenticated = false :=
  ⟨_, _, rfl, rfl, rfl⟩

/-- C2 (claim refuted by the code): `openProject` always raises a
TypeError during the keyword binding of
`PavloviaProject(session=self, id=projID)` against
`PavloviaProject.__init__(self, proj)`, before any project is constructed
or `currentProject` assigned. -/
theorem c2_openProject_raises_before_construction
    (s : PavloviaSession) (projID : PyVal) :
    openProject s projID = Except.error (PyError.typeError
      "__init__() got an unexpected keyword argument \x27session\x27") :=
  rfl

/-- C6 (claim partially refuted by the code): `createProject` and
`applyChanges` never return normally, but because `raise NotImplemented`
raises the sentinel rather than `NotImplementedError`, the error that
escapes is the interpreter TypeError, not a NotImplemented-class error. -/
theorem c6_unimplemented_raise_typeerror (s : PavloviaSession)
    (title descr : PyVal) (tags : List PyVal) (public : Bool)
    (category : PyVal) :
    createProject s title descr tags public category =
      Except.error (PyError.typeError
        "exceptions must derive from BaseException") ∧
    applyChanges s =
      Except.error (PyError.typeError
        "exceptions must derive from BaseException") :=
  ⟨rfl, rfl⟩

/-- A project whose bundle carries both an `owner.username` and a
`namespace.name`. -/
def c3proj : PavloviaProjectState :=
  { _proj := { attrs :=
      [("owner", PyVal.dict [("username", PyVal.str "alice")]),
       ("namespace", PyVal.dict [("name", PyVal.str "grp")])] } }

/-- C3 counterexample: with `owner.username = "alice"` present, the
`owner` property still returns `namespace.name = "grp"`. -/
theorem c3_counterexample_owner_field_ignored :
    ownerProp c3proj = Except.ok (PyVal.str "grp") ∧
    ownerProp c3proj ≠ Except.ok (PyVal.str "alice") := by
  refine ⟨rfl, ?_⟩
  intro h
  rw [show ownerProp c3proj = Except.ok (PyVal.str "grp") from rfl] at h
  have h1 : PyVal.str "grp" = PyVal.str "alice" := by injection h
  have h2 : "grp" = "alice" := by injection h1
  exact absurd h2 (by decide)

/-- C3 amended: the `owner` property always returns `namespace.name`
whenever that path exists, regardless of any `owner` field — the
`owner.username` preference is unreachable code after the first
`return`. -/
theorem c3_amended_owner_always_namespace_name (p : PavloviaProjectState)
    (ns : List (String × PyVal)) (v : PyVal)
    (h1 : alookup p._proj.attributes "namespace" = some (PyVal.dict ns))
    (h2 : alookup ns "name" = some v) :
    ownerProp p = Except.ok v := by
  simp [ownerProp, pyDictGet, h1, h2]

/-- Witness for the amended C3 at the two-field bundle of `c3proj`. -/
theorem c3_amended_witness :
    alookup c3proj._proj.attributes "namespace" =
      some (PyVal.dict [("name", PyVal.str "grp")]) ∧
    alookup [("name", PyVal.str "grp")] "name" = some (PyVal.str "grp") ∧
    ownerProp c3proj = Except.ok (PyVal.str "grp") :=
  ⟨rfl, rfl, c3_amended_owner_always_namespace_name c3proj _ _ rfl rfl⟩

/-- C7: `projectFromID` returns `None` for a falsy id (`None` or `""`)
without attempting a remote call, and wraps the fetched project for a
truthy id that resolves. -/
theorem c7_projectFromID (fetch : PyVal → Except PyError GitlabProject) :
    (projectFromID PyVal.none fetch = (Except.ok Option.none, false) ∧
     projectFromID (PyVal.str "") fetch = (Except.ok Option.none, false)) ∧
    ∀ id gp, pyTruthy id = true → fetch id = Except.ok gp →
      projectFromID id fetch = (Except.ok (some ⟨gp, []⟩), true) := by
  refine ⟨⟨rfl, rfl⟩, ?_⟩
  intro id gp ht hf
  simp [projectFromID, ht, pavloviaProjectInitBody, hf]

/-- A concrete fetch oracle answering every id with a one-field bundle. -/
def c7fetch : PyVal → Except PyError GitlabProject :=
  fun v => Except.ok { attrs := [("id", v)] }

/-- Witness for C7 at id 7 under `c7fetch`. -/
theorem c7_projectFromID_witness :
    pyTruthy (PyVal.int 7) = true ∧
    c7fetch (PyVal.int 7) = Except.ok { attrs := [("id", PyVal.int 7)] } ∧
    projectFromID (PyVal.int 7) c7fetch =
      (Except.ok (some ⟨{ attrs := [("id", PyVal.int 7)] }, []⟩), true) :=
  ⟨rfl, rfl, (c7_projectFromID c7fetch).2 (PyVal.int 7) _ rfl rfl⟩

/-- A project whose bundle has an id but no `description` field. -/
def c5proj : PavloviaProjectState :=
  { _proj := { attrs := [("id", PyVal.int 42)] } }

/-- C5 (id-naming part refuted by the code): the unknown-attribute error
does name the missing field, but — the project's id being available
(`idProp` returns 42) — the message never contains it, because
`__repr__` is the constant string. -/
theorem c5_error_message_lacks_project_id :
    projGetattr c5proj "description" =
      Except.error (PyError.attributeError
        "No attribute \x27description\x27 in PavloviaProject") ∧
    idProp c5proj = Except.ok (PyVal.int 42) ∧
    ¬ ("42".data <:+:
        ("No attribute \x27description\x27 in PavloviaProject").data) :=
  ⟨rfl, rfl, by decide⟩

/-- A listing entry whose id is the falsy integer 0. -/
def c4gp0 : GitlabProject := { attrs := [("id", PyVal.int 0)] }

/-- C4 counterexample: an owned entry with the falsy id 0 is dropped
entirely by `findUserProjects`, so the result does not contain one project
per distinct id of the input. -/
theorem c4_counterexample_falsy_id_dropped :
    findUserProjects [c4gp0] [] = Except.ok [] ∧
    alookup c4gp0.attrs "id" = some (PyVal.int 0) :=
  ⟨rfl, rfl⟩

/-- The loop of `findUserProjects` refines the spec merge: whenever every
entry carries an id value, the entries with a falsy id are dropped and the
projects kept are exactly the first-seen truthy ids, in input order. -/
theorem findUserProjectsGo_spec (gps : List GitlabProject)
    (h : ∀ gp ∈ gps, (gpId gp).isSome = true) :
    ∀ seen, ∃ projs, findUserProjectsGo gps seen = Except.ok projs ∧
      projs.map (fun p => gpId p._proj) =
        (specDedupMergeGo ((gps.filterMap gpId).filter pyTruthy) seen).map
          some := by
  induction gps with
  | nil => exact fun seen => ⟨[], rfl, rfl⟩
  | cons gp rest ih =>
      intro seen
      obtain ⟨v, hv⟩ := Option.isSome_iff_exists.mp (h gp (by simp))
      have hrest : ∀ g ∈ rest, (gpId g).isSome = true :=
        fun g hg => h g (by simp [hg])
      have hrid : gp.restId = Except.ok v := by
        simp only [GitlabProject.restId, show alookup gp.attrs "id" = some v
          from hv]
      have hfm : (gp :: rest).filterMap gpId = v :: rest.filterMap gpId := by
        simp [List.filterMap_cons, hv]
      by_cases htr : pyTruthy v
      · have hfil : ((gp :: rest).filterMap gpId).filter pyTruthy =
            v :: (rest.filterMap gpId).filter pyTruthy := by
          rw [hfm]
          simp [List.filter_cons, htr]
        by_cases hc : seen.contains v
        · obtain ⟨projs, hgo, hmap⟩ := ih hrest seen
          refine ⟨projs, ?_, ?_⟩
          · simp only [findUserProjectsGo, hrid, htr, hc]
            simpa using hgo
          · rw [hfil]
            simp only [specDedupMergeGo, hc, if_pos rfl]
            exact hmap
        · obtain ⟨tail, hgo, hmap⟩ := ih hrest (seen ++ [v])
          refine ⟨⟨gp, []⟩ :: tail, ?_, ?_⟩
          · simp [findUserProjectsGo, hrid, htr, hc, hgo]
          · rw [hfil]
            have hspec : specDedupMergeGo
                (v :: (rest.filterMap gpId).filter pyTruthy) seen =
                v :: specDedupMergeGo
                  ((rest.filterMap gpId).filter pyTruthy) (seen ++ [v]) := by
              simp only [specDedupMergeGo, if_neg hc]
            rw [hspec, List.map_cons, List.map_cons, hmap]
            simp [hv]
      · have hfalse : pyTruthy v = false := by simpa using htr
        have hfil : ((gp :: rest).filterMap gpId).filter pyTruthy =
            (rest.filterMap gpId).filter pyTruthy := by
          rw [hfm]
          simp [List.filter_cons, hfalse]
        obtain ⟨projs, hgo, hmap⟩ := ih hrest seen
        refine ⟨projs, ?_, ?_⟩
        · simp only [findUserProjectsGo, hrid]
          simp [hfalse, hgo]
        · rw [hfil]
          exact hmap

/-- C4 amended: `findUserProjects` drops every entry whose id is falsy;
among the remaining entries it returns one project per distinct id — first
occurrence wins, owned entries (in order) before member-only entries —
matching the spec-modelled drop-falsy-then-dedup merge, for every pair of
listings whose entries carry an id value of any truthiness. -/
theorem c4_amended_dedup_merge (own group : List GitlabProject)
    (h : ∀ gp ∈ own ++ group, (gpId gp).isSome = true) :
    ∃ projs, findUserProjects own group = Except.ok projs ∧
      projs.map (fun p => gpId p._proj) =
        (specDropFalsyDedupMerge ((own ++ group).filterMap gpId)).map some :=
  findUserProjectsGo_spec (own ++ group) h []

/-- Owned-side listing for the C4 example: ids 1, 0 (falsy) and 2. -/
def c4own : List GitlabProject :=
  [{ attrs := [("id", PyVal.int 1)] }, { attrs := [("id", PyVal.int 0)] },
   { attrs := [("id", PyVal.int 2)] }]

/-- Member-side listing for the C4 example: ids 2, 3. -/
def c4group : List GitlabProject :=
  [{ attrs := [("id", PyVal.int 2)] }, { attrs := [("id", PyVal.int 3)] }]

/-- Witness for the amended C4 at a mixed example: the falsy id 0 is
dropped and the merge yields exactly the ids 1, 2, 3 once each. -/
theorem c4_amended_dedup_merge_witness :
    (∀ gp ∈ c4own ++ c4group, (gpId gp).isSome = true) ∧
    specDropFalsyDedupMerge ((c4own ++ c4group).filterMap gpId) =
      [PyVal.int 1, PyVal.int 2, PyVal.int 3] ∧
    ∃ projs, findUserProjects c4own c4group = Except.ok projs ∧
      projs.map (fun p => gpId p._proj) =
        (specDropFalsyDedupMerge ((c4own ++ c4group).filterMap gpId)).map
          some := by
  have h : ∀ gp ∈ c4own ++ c4group, (gpId gp).isSome = true := by decide
  exact ⟨h, rfl, c4_amended_dedup_merge c4own c4group h⟩

end Pavlovia
